import Mathlib

/-!
# pengux/crawler: the crawl engine of `main.go`

A shallow embedding of `run`, `crawlSitemap`, `crawlLinks` and `do`.

* Go strings are modelled by `String`, that is, as text; on text, the prefix
  test by characters of `hasPrefix` agrees with the byte-wise test of
  `strings.HasPrefix`.
* The external collaborators (HTTP client, HTML parser, selector compiler and
  matcher, sitemap parser) are the fields of `Env`.
* Observable actions are recorded as a list of `Event`s. The traces of
  `crawlSitemap` and `crawlLinks` are those of the schedule in which each
  worker runs to completion as soon as it is started. With `concurrency = 1`
  this is the only schedule: the next `sem <- 1` has to wait for the
  worker's release. The capacity of `sem` is taken to be positive.
* The interleavings of enumeration thread and workers are the subject of the
  transition system `Gate`.
-/

namespace Crawler

/-! ## Strings -/

/-- Go `strings.HasPrefix(s, prefix)`:
`len(s) >= len(prefix) && s[:len(prefix)] == prefix`. -/
def hasPrefix (s pre : String) : Bool :=
  decide (pre.length ≤ s.length) && (s.data.take pre.length == pre.data)

/-- Go `strings.HasSuffix(s, suffix)`:
`len(s) >= len(suffix) && s[len(s)-len(suffix):] == suffix`. -/
def hasSuffix (s suf : String) : Bool :=
  decide (suf.length ≤ s.length) && (s.data.drop (s.length - suf.length) == suf.data)

/-! ## The URL resolver (body of the worker closure in `crawlLinks`) -/

/-- The rewriting of `url` at the start of the worker closure of `crawlLinks`:
```go
if !strings.HasPrefix(url, "http") {
    if !strings.HasPrefix(url, "/") {
        url = "/" + url
    }
    url = startURL + url
}
```
-/
def resolveURL (startURL url : String) : String :=
  if !hasPrefix url "http" then
    let url := if !hasPrefix url "/" then "/" ++ url else url
    startURL ++ url
  else
    url

/-- The scope test `strings.HasPrefix(url, startURL)` applied to the rewritten
URL; the worker returns without fetching when it is `false`. -/
def inScope (startURL url : String) : Bool :=
  hasPrefix (resolveURL startURL url) startURL

/-- The resolver as a pair: resolved URL and in-scope flag. -/
def resolve (startURL ref : String) : String × Bool :=
  (resolveURL startURL ref, inScope startURL ref)

/-- The part of `resolved` that follows its first `startURL.length`
characters: the path, when `resolved` is `startURL` followed by a path. -/
def pathAfter (startURL resolved : String) : String :=
  ⟨resolved.data.drop startURL.length⟩

/-- The junction property: `resolved` is `startURL` followed by a path that
begins with exactly one "/", and the origin does not itself end with "/",
so that no "//" occurs where origin and reference meet. -/
def singleSlashJunction (startURL resolved : String) : Bool :=
  hasPrefix resolved startURL &&
    hasPrefix (pathAfter startURL resolved) "/" &&
    !hasPrefix (pathAfter startURL resolved) "//" &&
    !hasSuffix startURL "/"

/-! ## Observable actions and external collaborators -/

/-- Go `error` values are represented by their message. -/
abbrev Error := String

/-- The observable actions of a crawl. -/
inductive Event where
  /-- `sem <- 1` on the enumeration thread. -/
  | acquire
  /-- The deferred `<-sem` of a worker. -/
  | release
  /-- Entry into `do(url)`: a fetch attempt for a target. -/
  | call (url : String)
  /-- `client.Do(req)`: an HTTP GET is sent to `url`. -/
  | get (url : String)
  /-- The sitemap parser fetches the sitemap root `url`. -/
  | sitemapGet (url : String)
  /-- `log.Printf("crawling sitemap index '%s'", url)`. -/
  | logCrawling (url : String)
  /-- `log.Printf("response time: %d ms for requesting %s\n", ..., url)`
  (the measured duration is not recorded). -/
  | logResponse (url : String)
  /-- `log.Printf("[ERROR] could not crawl URL '%s': %v", url, err)`. -/
  | logError (url : String) (err : Error)
  /-- `log.Fatal(err)`: prints `err` and calls `os.Exit(1)`; deferred functions
  are not run. -/
  | fatal (err : Error)
  deriving DecidableEq, Repr

/-- How a call ends: it returns to its caller with Go's `error` result
(`none` is `nil`), or the whole process has been terminated by `log.Fatal`. -/
inductive Status where
  | returned (err : Option Error)
  | exited
  deriving DecidableEq, Repr

/-- `html.Attribute`: the fields read by `crawlLinks`. -/
structure Attribute where
  Key : String
  Val : String
  deriving DecidableEq, Repr

/-- `html.Node`: the field read by `crawlLinks`. -/
structure Node where
  Attr : List Attribute
  deriving DecidableEq, Repr

/-- The external collaborators, as functions of their inputs.
`Body`, `Doc` and `Sel` stand for `io.ReadCloser`, `*html.Node` (a parsed
document) and `cascadia.Selector`. -/
structure Env (Body Doc Sel : Type) where
  /-- `http.NewRequest(http.MethodGet, url, nil)`: its error, if any. -/
  newRequest : String → Option Error
  /-- `client.Do(req)` for a request to `url`: the response body or an error. -/
  clientDo : String → Except Error Body
  /-- `html.Parse(resp.Body)`. -/
  htmlParse : Body → Except Error Doc
  /-- `resp.Body.Close()`. -/
  bodyClose : Body → Option Error
  /-- `cascadia.Compile(sel)`. -/
  compile : String → Except Error Sel
  /-- `selector.MatchAll(htmlDoc)`. -/
  matchAll : Sel → Doc → List Node
  /-- What the sitemap parser finds at a root URL: an error fetching it, or the
  entry locations it hands to its consumer, in order, and the error (if any)
  with which parsing ends. -/
  sitemapFeed : String → Except Error (List String × Option Error)

/-- The flags read by `run` from the `cli.Context`. -/
structure Context where
  mode : String
  site : List String
  css3selector : String
  concurrency : Nat
  timeout : Nat

section Engine

variable {Body Doc Sel : Type}

/-! ## The Fetch Worker -/

/-- Source `do(url)` (`do` is a keyword here): build the request, send it, log
the response time. Returns the events and the `error` result. -/
def doFetch (env : Env Body Doc Sel) (url : String) : List Event × Option Error :=
  match env.newRequest url with
  | some err => ([.call url], some err)
  | none =>
    match env.clientDo url with
    | .error err => ([.call url, .get url], some err)
    | .ok _ => ([.call url, .get url, .logResponse url], none)

/-! ## Sitemap mode -/

/-- The goroutine started by the consumer in `crawlSitemap`, run to completion:
`do(url)`, a log line on error, then the deferred `<-sem`. -/
def sitemapWorker (env : Env Body Doc Sel) (url : String) : List Event :=
  match doFetch env url with
  | (evs, some err) => evs ++ [.logError url err, .release]
  | (evs, none) => evs ++ [.release]

/-- The consumer passed to `sitemap.ParseFromSite` by `crawlSitemap`:
`sem <- 1`, start the worker on `e.GetLocation()`, `return nil`. -/
def sitemapConsumer (env : Env Body Doc Sel) (loc : String) : List Event × Option Error :=
  (.acquire :: sitemapWorker env loc, none)

/-- The parsing loop of the sitemap parser: the consumer is called on each
entry in turn; an error returned by the consumer stops the loop and is
returned; otherwise the result is the parser's own final result. -/
def feedEntries (consumer : String → List Event × Option Error) (final : Option Error) :
    List String → List Event × Option Error
  | [] => ([], final)
  | e :: rest =>
    match consumer e with
    | (evs, some err) => (evs, some err)
    | (evs, none) =>
      let r := feedEntries consumer final rest
      (evs ++ r.1, r.2)

/-- External `sitemap.ParseFromSite(url, consumer)`. -/
def parseFromSite (env : Env Body Doc Sel) (url : String)
    (consumer : String → List Event × Option Error) : List Event × Option Error :=
  match env.sitemapFeed url with
  | .error err => ([.sitemapGet url], some err)
  | .ok (entries, final) =>
    let r := feedEntries consumer final entries
    (.sitemapGet url :: r.1, r.2)

/-- What the sitemap parser itself returns for `url` when its consumer never
fails. -/
def parserResult (env : Env Body Doc Sel) (url : String) : Option Error :=
  match env.sitemapFeed url with
  | .error err => some err
  | .ok (_, final) => final

/-- Source `crawlSitemap(url, concurrency)`. The channel `sem` has capacity
`concurrency`; the trace is that of the schedule in which every worker runs to
completion as soon as it is started, the only one when `concurrency = 1`. -/
def crawlSitemap (env : Env Body Doc Sel) (url : String) (_concurrency : Nat) :
    List Event × Option Error :=
  let r := parseFromSite env url (sitemapConsumer env)
  (.logCrawling url :: r.1, r.2)

/-! ## Link mode -/

/-- The goroutine started by `crawlLinks` for one `href` value, run to
completion. The second component is `true` when the worker ended the process
with `log.Fatal`; the deferred `<-sem` is then not run. -/
def linkWorker (env : Env Body Doc Sel) (startURL url : String) : List Event × Bool :=
  let url := resolveURL startURL url
  if !hasPrefix url startURL then
    ([.release], false)
  else
    match doFetch env url with
    | (evs, some err) => (evs ++ [.fatal err], true)
    | (evs, none) => (evs ++ [.release], false)

/-- The inner loop of `crawlLinks`, `for _, attr := range link.Attr`. -/
def crawlAttrs (env : Env Body Doc Sel) (startURL : String) :
    List Attribute → List Event × Bool
  | [] => ([], false)
  | attr :: rest =>
    if attr.Key != "href" then
      crawlAttrs env startURL rest
    else
      match linkWorker env startURL attr.Val with
      | (evs, true) => (.acquire :: evs, true)
      | (evs, false) =>
        let r := crawlAttrs env startURL rest
        (.acquire :: evs ++ r.1, r.2)

/-- The outer loop of `crawlLinks`, `for _, link := range links`. -/
def crawlNodes (env : Env Body Doc Sel) (startURL : String) :
    List Node → List Event × Bool
  | [] => ([], false)
  | link :: rest =>
    match crawlAttrs env startURL link.Attr with
    | (evs, true) => (evs, true)
    | (evs, false) =>
      let r := crawlNodes env startURL rest
      (evs ++ r.1, r.2)

/-- Source `crawlLinks(startURL, concurrency, selector)`; same schedule as
`crawlSitemap`. -/
def crawlLinks (env : Env Body Doc Sel) (startURL : String) (_concurrency : Nat)
    (selector : Sel) : List Event × Status :=
  match env.newRequest startURL with
  | some err => ([], .returned (some err))
  | none =>
    match env.clientDo startURL with
    | .error err => ([.get startURL], .returned (some err))
    | .ok body =>
      match env.htmlParse body with
      | .error err => ([.get startURL], .returned (some err))
      | .ok htmlDoc =>
        match env.bodyClose body with
        | some err => ([.get startURL], .returned (some err))
        | none =>
          let links := env.matchAll selector htmlDoc
          match crawlNodes env startURL links with
          | (evs, true) => (.get startURL :: evs, .exited)
          | (evs, false) => (.get startURL :: evs, .returned none)

/-! ## The top-level action -/

/-- The loop `for _, site := range sites` of `run`. -/
def runSites (env : Env Body Doc Sel) (mode css3selector : String) (concurrency : Nat) :
    List String → List Event × Status
  | [] => ([], .returned none)
  | site :: rest =>
    if mode == "links" then
      match env.compile css3selector with
      | .error err => ([], .returned (some err))
      | .ok selector =>
        match crawlLinks env site concurrency selector with
        | (evs, .returned none) =>
          let r := runSites env mode css3selector concurrency rest
          (evs ++ r.1, r.2)
        | (evs, st) => (evs, st)
    else
      match crawlSitemap env (site ++ "/sitemap.xml") concurrency with
      | (evs, some err) => (evs, .returned (some err))
      | (evs, none) =>
        let r := runSites env mode css3selector concurrency rest
        (evs ++ r.1, r.2)

/-- Source `run(c)`. Setting the client timeout leaves no event. -/
def run (env : Env Body Doc Sel) (c : Context) : List Event × Status :=
  runSites env c.mode c.css3selector c.concurrency c.site

end Engine

/-! ## Reading traces -/

/-- The targets for which a fetch was attempted: the arguments of the calls
of `do`, in order. -/
def fetchCalls : List Event → List String
  | [] => []
  | .call url :: evs => url :: fetchCalls evs
  | _ :: evs => fetchCalls evs

/-- Whether an event is a fetch of any kind: a target, a seed page or a
sitemap root. -/
def Event.isFetch : Event → Bool
  | .call _ => true
  | .get _ => true
  | .sitemapGet _ => true
  | _ => false

/-- Number of `sem <- 1` operations in a trace. -/
def acquires (evs : List Event) : Nat := evs.count .acquire

/-- Number of `<-sem` operations in a trace. -/
def releases (evs : List Event) : Nat := evs.count .release

/-- All `href` values of the matched elements, in document order. -/
def hrefValues : List Node → List String
  | [] => []
  | link :: rest =>
    ((link.Attr.filter (fun attr => attr.Key == "href")).map (fun attr => attr.Val))
      ++ hrefValues rest

/-- The resolved forms of the in-scope `href` values, one per attribute. -/
def linkTargets (startURL : String) (links : List Node) : List String :=
  ((hrefValues links).filter (fun ref => inScope startURL ref)).map (resolveURL startURL)

/-! ## The concurrency gate as a transition system

Both crawl modes use the same protocol: the enumeration thread performs
`sem <- 1`, then starts a worker with `go`; the worker's deferred `<-sem` is
its last action. `sem` is a buffered channel of capacity `C`, so a send is
possible only while it holds fewer than `C` values and a receive only while it
holds at least one. In link mode a worker may instead end the process with
`log.Fatal`. -/

/-- A state of one crawl invocation. -/
structure Gate where
  /-- Candidate URLs not yet taken by the enumeration thread. -/
  pending : List String
  /-- Number of values in `sem`: the tokens held. -/
  held : Nat
  /-- The enumeration thread has sent on `sem` for this URL and has not yet
  executed `go`. -/
  starting : Option String
  /-- The URLs of the workers that are executing. -/
  running : List String
  /-- The process has been terminated by `log.Fatal`. -/
  exited : Bool
  deriving DecidableEq, Repr

/-- The atomic steps of a crawl invocation. -/
inductive Action where
  /-- `sem <- 1` for the next candidate. -/
  | acquire
  /-- `go func(url string) {...}(...)`. -/
  | spawn
  /-- The `i`-th executing worker ends: its deferred `<-sem`, then it is gone. -/
  | finish (i : Nat)
  /-- The `i`-th executing worker calls `log.Fatal` (link mode only). -/
  | fatal (i : Nat)
  deriving DecidableEq, Repr

/-- The state in which `crawlSitemap` or `crawlLinks` creates `sem`. -/
def Gate.init (candidates : List String) : Gate :=
  { pending := candidates, held := 0, starting := none, running := [], exited := false }

/-- One step; `none` when the action is not enabled. `linkMode` tells whether
the invocation is `crawlLinks`, `C` is the capacity of `sem`. -/
def Gate.step (linkMode : Bool) (C : Nat) (s : Gate) : Action → Option Gate
  | .acquire =>
    if s.exited then none
    else
      match s.starting, s.pending with
      | none, url :: rest =>
        if s.held < C then
          some { s with pending := rest, held := s.held + 1, starting := some url }
        else none
      | _, _ => none
  | .spawn =>
    if s.exited then none
    else
      match s.starting with
      | some url => some { s with starting := none, running := url :: s.running }
      | none => none
  | .finish i =>
    if s.exited then none
    else if i < s.running.length ∧ 0 < s.held then
      some { s with running := s.running.eraseIdx i, held := s.held - 1 }
    else none
  | .fatal i =>
    if linkMode ∧ s.exited = false ∧ i < s.running.length then
      some { s with exited := true }
    else none

/-- Run a sequence of actions; `none` when one of them is not enabled. -/
def Gate.exec (linkMode : Bool) (C : Nat) (s : Gate) : List Action → Option Gate
  | [] => some s
  | a :: rest =>
    match Gate.step linkMode C s a with
    | none => none
    | some s' => Gate.exec linkMode C s' rest

/-- The tokens accounted for: one per executing worker and one for a worker
about to be started. -/
def Gate.owed (s : Gate) : Nat :=
  s.running.length + (if s.starting.isSome then 1 else 0)

/-- The gate invariant: every held token is owed to an executing worker or to
the worker about to be started, and at most `C` tokens are held. -/
def Gate.Inv (C : Nat) (s : Gate) : Prop :=
  s.owed = s.held ∧ s.held ≤ C

/-- The fetch attempts of the workers for a list of `href` values, run one
after the other until one of them ends the process. -/
def workerCalls {Body Doc Sel : Type} (env : Env Body Doc Sel) (startURL : String) :
    List String → List String × Bool
  | [] => ([], false)
  | ref :: rest =>
    match linkWorker env startURL ref with
    | (evs, true) => (fetchCalls evs, true)
    | (evs, false) =>
      let r := workerCalls env startURL rest
      (fetchCalls evs ++ r.1, r.2)

/-! ## Concrete environments -/

/-- A site whose seed page has the anchors `/a` and `/b`; the request for
`https://example.com/a` fails with a transport error. -/
def failingEnv : Env Unit Unit Unit where
  newRequest := fun _ => none
  clientDo := fun url => if url == "https://example.com/a" then .error "timeout" else .ok ()
  htmlParse := fun _ => .ok ()
  bodyClose := fun _ => none
  compile := fun sel => if sel == "a" then .ok () else .error "invalid selector"
  matchAll := fun _ _ =>
    [{ Attr := [{ Key := "href", Val := "/a" }] }, { Attr := [{ Key := "href", Val := "/b" }] }]
  sitemapFeed := fun _ => .ok (["https://example.com/a", "https://example.com/b"], none)

/-- The site of end-to-end scenario B: the seed page has the anchors `/a`,
`https://example.com/b` and `https://other.com/c`, and every request succeeds. -/
def scenarioEnv : Env Unit Unit Unit where
  newRequest := fun _ => none
  clientDo := fun _ => .ok ()
  htmlParse := fun _ => .ok ()
  bodyClose := fun _ => none
  compile := fun sel => if sel == "a" then .ok () else .error "invalid selector"
  matchAll := fun _ _ =>
    [{ Attr := [{ Key := "class", Val := "nav" }, { Key := "href", Val := "/a" }] },
     { Attr := [{ Key := "href", Val := "https://example.com/b" }] },
     { Attr := [{ Key := "id", Val := "top" }] },
     { Attr := [{ Key := "href", Val := "https://other.com/c" }] }]
  sitemapFeed := fun _ => .ok (["https://example.com/a"], none)

/-! ## Facts about `hasPrefix` -/

theorem hasPrefix_iff (s pre : String) : hasPrefix s pre = true ↔ pre.data <+: s.data := by
  unfold hasPrefix
  rw [Bool.and_eq_true, decide_eq_true_iff, beq_iff_eq, List.prefix_iff_eq_take]
  constructor
  · rintro ⟨_, h⟩
    exact h.symm
  · intro h
    refine ⟨?_, h.symm⟩
    have := congrArg List.length h
    simp only [List.length_take, String.length] at this ⊢
    omega

theorem hasPrefix_append_left (a b : String) : hasPrefix (a ++ b) a = true := by
  rw [hasPrefix_iff, String.data_append]
  exact List.prefix_append _ _

theorem hasPrefix_trans {a b c : String} (h₁ : hasPrefix b a = true)
    (h₂ : hasPrefix c b = true) : hasPrefix c a = true := by
  rw [hasPrefix_iff] at *
  exact h₁.trans h₂

theorem resolveURL_of_absolute (startURL ref : String) (h : hasPrefix ref "http" = true) :
    resolveURL startURL ref = ref := by
  simp [resolveURL, h]

theorem resolveURL_of_relative (startURL ref : String) (h : hasPrefix ref "http" = false) :
    resolveURL startURL ref = startURL ++ (if hasPrefix ref "/" then ref else "/" ++ ref) := by
  simp only [resolveURL, h]
  cases hasPrefix ref "/" <;> simp

/-! ## The URL resolver -/

/-- C1: a reference that does not begin with "http" resolves to
`startURL ++ ref` when it begins with "/" and to `startURL ++ "/" ++ ref`
otherwise; "foo/bar" and "/foo/bar" both resolve against
"https://example.com" to "https://example.com/foo/bar", and the empty
reference and "mailto:x" resolve to `startURL ++ "/"` and
`startURL ++ "/mailto:x"`. -/
theorem relative_path_normalization (startURL ref : String)
    (h : hasPrefix ref "http" = false) :
    (resolveURL startURL ref =
      if hasPrefix ref "/" then startURL ++ ref else startURL ++ "/" ++ ref) ∧
    resolveURL "https://example.com" "foo/bar" = "https://example.com/foo/bar" ∧
    resolveURL "https://example.com" "/foo/bar" = "https://example.com/foo/bar" ∧
    resolveURL startURL "" = startURL ++ "/" ∧
    resolveURL startURL "mailto:x" = startURL ++ "/mailto:x" := by
  refine ⟨?_, by decide, by decide, ?_, ?_⟩
  · rw [resolveURL_of_relative _ _ h]
    cases hasPrefix ref "/" <;> simp [String.append_assoc]
  · rw [resolveURL_of_relative _ _ (by decide)]
    simp [show hasPrefix "" "/" = false by decide]
  · rw [resolveURL_of_relative _ _ (by decide)]
    simp [show hasPrefix "mailto:x" "/" = false by decide]

theorem relative_path_normalization_witness :
    hasPrefix "about/team" "http" = false ∧
    resolveURL "https://example.com" "about/team" = "https://example.com/about/team" :=
  ⟨by decide, by
    have h := (relative_path_normalization "https://example.com" "about/team" (by decide)).1
    rw [h]
    decide⟩

/-! ## Fetch attempts of a worker -/

section Workers

variable {Body Doc Sel : Type}

theorem fetchCalls_append (xs ys : List Event) :
    fetchCalls (xs ++ ys) = fetchCalls xs ++ fetchCalls ys := by
  induction xs with
  | nil => rfl
  | cons e es ih => cases e <;> simp [fetchCalls, ih]

theorem fetchCalls_doFetch (env : Env Body Doc Sel) (url : String) :
    fetchCalls (doFetch env url).1 = [url] := by
  unfold doFetch
  cases env.newRequest url with
  | some err => rfl
  | none =>
    cases env.clientDo url with
    | error err => rfl
    | ok b => rfl

theorem linkWorker_of_outOfScope (env : Env Body Doc Sel) (startURL ref : String)
    (h : inScope startURL ref = false) :
    linkWorker env startURL ref = ([.release], false) := by
  unfold inScope at h
  simp [linkWorker, h]

theorem linkWorker_of_inScope (env : Env Body Doc Sel) (startURL ref : String)
    (h : inScope startURL ref = true) :
    linkWorker env startURL ref =
      match doFetch env (resolveURL startURL ref) with
      | (evs, some err) => (evs ++ [.fatal err], true)
      | (evs, none) => (evs ++ [.release], false) := by
  unfold inScope at h
  simp [linkWorker, h]

theorem fetchCalls_linkWorker (env : Env Body Doc Sel) (startURL ref : String) :
    fetchCalls (linkWorker env startURL ref).1 =
      if inScope startURL ref then [resolveURL startURL ref] else [] := by
  cases hs : inScope startURL ref with
  | false => simp [linkWorker_of_outOfScope env startURL ref hs, fetchCalls]
  | true =>
    have hd := fetchCalls_doFetch env (resolveURL startURL ref)
    rw [linkWorker_of_inScope env startURL ref hs]
    rcases hf : doFetch env (resolveURL startURL ref) with ⟨evs, _ | err⟩ <;>
      simp [hf, fetchCalls_append, fetchCalls] at hd ⊢ <;> exact hd

theorem inScope_of_relative (startURL ref : String) (h : hasPrefix ref "http" = false) :
    inScope startURL ref = true := by
  unfold inScope
  rw [resolveURL_of_relative _ _ h]
  exact hasPrefix_append_left _ _

theorem inScope_of_absolute (startURL ref : String) (h : hasPrefix ref "http" = true) :
    inScope startURL ref = hasPrefix ref startURL := by
  unfold inScope
  rw [resolveURL_of_absolute _ _ h]

/-- C3: a reference that begins with "http" and with `startURL` resolves to
itself, in scope; and when `startURL` begins with "http", resolving the
output of a resolution again against the same origin returns the same URL
and the same in-scope flag. -/
theorem resolver_idempotence (startURL ref : String) :
    (hasPrefix ref "http" = true → hasPrefix ref startURL = true →
      resolve startURL ref = (ref, true)) ∧
    (hasPrefix startURL "http" = true →
      resolve startURL (resolve startURL ref).1 = resolve startURL ref) := by
  constructor
  · intro h hs
    simp [resolve, inScope, resolveURL_of_absolute _ _ h, hs]
  · intro hstart
    have habs : hasPrefix (resolveURL startURL ref) "http" = true := by
      cases h : hasPrefix ref "http" with
      | true => rw [resolveURL_of_absolute _ _ h]; exact h
      | false =>
        rw [resolveURL_of_relative _ _ h]
        exact hasPrefix_trans hstart (hasPrefix_append_left _ _)
    simp [resolve, inScope, resolveURL_of_absolute _ _ habs]

theorem resolver_idempotence_witness :
    hasPrefix "https://example.com" "http" = true ∧
    resolve "https://example.com" "https://example.com/b" = ("https://example.com/b", true) ∧
    resolve "https://example.com" (resolve "https://example.com" "a/b").1
      = resolve "https://example.com" "a/b" :=
  ⟨by decide,
   (resolver_idempotence "https://example.com" "https://example.com/b").1 (by decide) (by decide),
   (resolver_idempotence "https://example.com" "a/b").2 (by decide)⟩

end Workers

/-! ## The junction between origin and reference -/

theorem pathAfter_append (a p : String) : pathAfter a (a ++ p) = p := by
  unfold pathAfter
  rw [String.data_append, String.length, List.drop_left]

theorem hasPrefix_slash_cons (ref : String) : hasPrefix ("/" ++ ref) "//" = hasPrefix ref "/" := by
  rw [Bool.eq_iff_iff, hasPrefix_iff, hasPrefix_iff, String.data_append]
  show ('/' :: ['/']) <+: ('/' :: ref.data) ↔ ['/'] <+: ref.data
  rw [List.cons_prefix_cons]
  simp

theorem not_doubleSlash_of_not_slash (ref : String) (h : hasPrefix ref "/" = false) :
    hasPrefix ref "//" = false := by
  cases h2 : hasPrefix ref "//" with
  | false => rfl
  | true =>
    have : hasPrefix ref "/" = true := hasPrefix_trans (by decide) h2
    rw [h] at this
    exact absurd this (by decide)

/-- C9 (as amended): for a reference that does not begin with "http", the
resolved URL is `startURL` followed by a path that begins with exactly one
"/", with no "//" at the junction, exactly when the reference does not begin
with "//" and `startURL` does not end with "/". -/
theorem single_slash_junction (startURL ref : String) (h : hasPrefix ref "http" = false) :
    singleSlashJunction startURL (resolveURL startURL ref) = true ↔
      (hasPrefix ref "//" = false ∧ hasSuffix startURL "/" = false) := by
  rw [resolveURL_of_relative _ _ h]
  unfold singleSlashJunction
  rw [pathAfter_append, hasPrefix_append_left]
  cases hs : hasPrefix ref "/" with
  | true => simp [hs]
  | false =>
    simp [hasPrefix_slash_cons, hs, not_doubleSlash_of_not_slash ref hs,
      hasPrefix_append_left]

theorem single_slash_junction_witness :
    hasPrefix "foo/bar" "http" = false ∧
    singleSlashJunction "https://example.com" (resolveURL "https://example.com" "foo/bar")
      = true :=
  ⟨by decide,
   (single_slash_junction "https://example.com" "foo/bar" (by decide)).2
     ⟨by decide, by decide⟩⟩

/-- C9 (counterexample): the reference "//cdn.example.com/lib.js" does not
begin with "http" and resolves against "https://example.com" to
"https://example.com//cdn.example.com/lib.js", whose path begins with "//";
and "/a" resolves against "https://example.com/" to "https://example.com//a". -/
theorem double_slash_counterexample :
    hasPrefix "//cdn.example.com/lib.js" "http" = false ∧
    resolveURL "https://example.com" "//cdn.example.com/lib.js"
      = "https://example.com//cdn.example.com/lib.js" ∧
    singleSlashJunction "https://example.com"
      (resolveURL "https://example.com" "//cdn.example.com/lib.js") = false ∧
    hasPrefix "/a" "http" = false ∧
    resolveURL "https://example.com/" "/a" = "https://example.com//a" ∧
    singleSlashJunction "https://example.com/" (resolveURL "https://example.com/" "/a")
      = false := by
  decide

/-! ## Absolute and relative references -/

/-- C10 (as amended): the resolver leaves a reference unchanged, and only
tests it against the origin, if and only if the reference begins with "http":
a reference with that prefix (in particular one that begins with "http://" or
"https://") resolves to itself with in-scope flag `hasPrefix ref startURL`,
and every other reference is concatenated with the origin. -/
theorem absolute_classification (startURL ref : String) :
    (hasPrefix ref "http" = true → resolve startURL ref = (ref, hasPrefix ref startURL)) ∧
    (hasPrefix ref "http" = false →
      resolve startURL ref
        = (startURL ++ (if hasPrefix ref "/" then ref else "/" ++ ref), true)) ∧
    (hasPrefix ref "http://" = true ∨ hasPrefix ref "https://" = true →
      hasPrefix ref "http" = true) := by
  refine ⟨?_, ?_, ?_⟩
  · intro h
    simp [resolve, inScope, resolveURL_of_absolute _ _ h]
  · intro h
    have hin := inScope_of_relative startURL ref h
    simp [resolve, hin, resolveURL_of_relative _ _ h]
  · rintro (h | h)
    · exact hasPrefix_trans (by decide) h
    · exact hasPrefix_trans (by decide) h

theorem absolute_classification_witness :
    hasPrefix "https://example.com/b" "http" = true ∧
    resolve "https://example.com" "https://example.com/b" = ("https://example.com/b", true) :=
  ⟨by decide, by
    rw [(absolute_classification "https://example.com" "https://example.com/b").1 (by decide)]
    decide⟩

/-- C10 (counterexample): "httpdocs/page.html" begins with neither "http://"
nor "https://", yet it is left unchanged and dropped as out of scope instead
of being resolved to "https://example.com/httpdocs/page.html". -/
theorem httpdocs_counterexample :
    hasPrefix "httpdocs/page.html" "http://" = false ∧
    hasPrefix "httpdocs/page.html" "https://" = false ∧
    resolve "https://example.com" "httpdocs/page.html" = ("httpdocs/page.html", false) ∧
    resolveURL "https://example.com" "httpdocs/page.html"
      ≠ "https://example.com/httpdocs/page.html" := by
  decide

/-! ## The concurrency gate -/

theorem Gate.inv_init (C : Nat) (candidates : List String) :
    Gate.Inv C (Gate.init candidates) := by
  simp [Gate.Inv, Gate.init, Gate.owed]

theorem Gate.inv_step {linkMode : Bool} {C : Nat} {s s' : Gate} {a : Action}
    (hs : Gate.Inv C s) (h : Gate.step linkMode C s a = some s') : Gate.Inv C s' := by
  obtain ⟨howed, hle⟩ := hs
  unfold Gate.owed at howed
  cases a with
  | acquire =>
    simp only [Gate.step] at h
    split at h
    · exact absurd h (by simp)
    · split at h
      · rename_i hst _
        split at h
        · injection h with h
          subst h
          rw [hst] at howed
          simp [Gate.Inv, Gate.owed] at howed ⊢
          omega
        · exact absurd h (by simp)
      · exact absurd h (by simp)
  | spawn =>
    simp only [Gate.step] at h
    split at h
    · exact absurd h (by simp)
    · split at h
      · rename_i hst
        injection h with h
        subst h
        rw [hst] at howed
        simp [Gate.Inv, Gate.owed] at howed ⊢
        omega
      · exact absurd h (by simp)
  | finish i =>
    simp only [Gate.step] at h
    split at h
    · exact absurd h (by simp)
    · split at h
      · rename_i hi
        injection h with h
        subst h
        simp only [Gate.Inv, Gate.owed, List.length_eraseIdx, hi.1, if_true]
        omega
      · exact absurd h (by simp)
  | fatal i =>
    simp only [Gate.step] at h
    split at h
    · injection h with h
      subst h
      exact ⟨howed, hle⟩
    · exact absurd h (by simp)

theorem Gate.inv_exec {linkMode : Bool} {C : Nat} (acts : List Action) {s s' : Gate}
    (hs : Gate.Inv C s) (h : Gate.exec linkMode C s acts = some s') : Gate.Inv C s' := by
  induction acts generalizing s with
  | nil =>
    simp only [Gate.exec] at h
    injection h with h
    subst h
    exact hs
  | cons a rest ih =>
    simp only [Gate.exec] at h
    split at h
    · exact absurd h (by simp)
    · rename_i s₁ hstep
      exact ih (Gate.inv_step hs hstep) h

/-- C5: with the gate modelled as a counter of held tokens, `sem <- 1`
enabled only while fewer than `C` tokens are held, each worker started only
after its own acquire and releasing one token when it ends, every state
reachable in a `crawlSitemap` or `crawlLinks` invocation with capacity
`C ≥ 1`, for any list of candidate URLs, holds between 0 and `C` tokens and
has at most `C` executing workers, none of them without a token. -/
theorem gate_capacity_bound (linkMode : Bool) (C : Nat) (_hC : 1 ≤ C)
    (candidates : List String) (acts : List Action) (s : Gate)
    (h : Gate.exec linkMode C (Gate.init candidates) acts = some s) :
    0 ≤ s.held ∧ s.held ≤ C ∧ s.running.length ≤ C ∧ s.running.length ≤ s.held := by
  obtain ⟨howed, hle⟩ := Gate.inv_exec acts (Gate.inv_init C candidates) h
  unfold Gate.owed at howed
  refine ⟨Nat.zero_le _, hle, ?_, ?_⟩ <;> omega

theorem gate_capacity_bound_witness :
    1 ≤ 2 ∧
    Gate.exec true 2 (Gate.init ["/a", "/b", "/c"]) [.acquire, .spawn, .acquire, .spawn]
      = some { pending := ["/c"], held := 2, starting := none, running := ["/b", "/a"],
               exited := false } ∧
    (0 ≤ 2 ∧ 2 ≤ 2 ∧ ["/b", "/a"].length ≤ 2 ∧ ["/b", "/a"].length ≤ 2) :=
  ⟨by decide, by decide,
   gate_capacity_bound true 2 (by decide) ["/a", "/b", "/c"]
     [.acquire, .spawn, .acquire, .spawn]
     { pending := ["/c"], held := 2, starting := none, running := ["/b", "/a"],
       exited := false }
     (by decide)⟩

/-! ## Link extraction -/

section Crawl

variable {Body Doc Sel : Type}

theorem hrefValues_cons (link : Node) (rest : List Node) :
    hrefValues (link :: rest) =
      ((link.Attr.filter (fun attr => attr.Key == "href")).map (fun attr => attr.Val))
        ++ hrefValues rest := rfl

theorem workerCalls_append (env : Env Body Doc Sel) (startURL : String) (xs ys : List String) :
    workerCalls env startURL (xs ++ ys) =
      match workerCalls env startURL xs with
      | (cs, true) => (cs, true)
      | (cs, false) =>
        (cs ++ (workerCalls env startURL ys).1, (workerCalls env startURL ys).2) := by
  induction xs with
  | nil => simp [workerCalls]
  | cons x xs ih =>
    simp only [List.cons_append, workerCalls]
    rcases hw : linkWorker env startURL x with ⟨evs, _ | _⟩
    · simp only [List.append_eq]
      rw [ih]
      rcases workerCalls env startURL xs with ⟨cs, _ | _⟩ <;> simp
    · simp

theorem crawlAttrs_calls (env : Env Body Doc Sel) (startURL : String) (attrs : List Attribute) :
    (fetchCalls (crawlAttrs env startURL attrs).1, (crawlAttrs env startURL attrs).2) =
      workerCalls env startURL
        ((attrs.filter (fun attr => attr.Key == "href")).map (fun attr => attr.Val)) := by
  induction attrs with
  | nil => rfl
  | cons attr rest ih =>
    by_cases hk : attr.Key = "href"
    · simp only [crawlAttrs, hk, bne_self_eq_false, Bool.false_eq_true, if_false,
        List.filter_cons, beq_self_eq_true, if_true, List.map_cons, workerCalls]
      rcases hw : linkWorker env startURL attr.Val with ⟨evs, _ | _⟩
      · rw [← ih]
        simp [fetchCalls, fetchCalls_append]
      · simp [fetchCalls]
    · have hb : (attr.Key == "href") = false := by simpa using hk
      simp only [crawlAttrs, bne, hb, Bool.not_false, if_true, List.filter_cons,
        Bool.false_eq_true, if_false]
      exact ih

theorem crawlNodes_calls (env : Env Body Doc Sel) (startURL : String) (links : List Node) :
    (fetchCalls (crawlNodes env startURL links).1, (crawlNodes env startURL links).2) =
      workerCalls env startURL (hrefValues links) := by
  induction links with
  | nil => rfl
  | cons link rest ih =>
    rw [hrefValues_cons, workerCalls_append, ← crawlAttrs_calls, ← ih]
    simp only [crawlNodes]
    rcases crawlAttrs env startURL link.Attr with ⟨evs, _ | _⟩ <;> simp [fetchCalls_append]

theorem linkWorker_exit_iff (env : Env Body Doc Sel) (startURL ref : String) :
    (linkWorker env startURL ref).2 = true ↔
      (inScope startURL ref = true ∧ (doFetch env (resolveURL startURL ref)).2 ≠ none) := by
  cases hs : inScope startURL ref with
  | false => simp [linkWorker_of_outOfScope env startURL ref hs]
  | true =>
    rw [linkWorker_of_inScope env startURL ref hs]
    rcases doFetch env (resolveURL startURL ref) with ⟨evs, _ | err⟩ <;> simp

theorem workerCalls_initial (env : Env Body Doc Sel) (startURL : String) (refs : List String) :
    (workerCalls env startURL refs).1 <+:
      (refs.filter (fun ref => inScope startURL ref)).map (resolveURL startURL) := by
  induction refs with
  | nil => simp [workerCalls]
  | cons ref rest ih =>
    have hc := fetchCalls_linkWorker env startURL ref
    simp only [workerCalls]
    rcases hw : linkWorker env startURL ref with ⟨evs, _ | _⟩ <;> rw [hw] at hc <;>
      cases hs : inScope startURL ref <;> simp [hs] at hc <;>
      simp [hc, hs, List.filter_cons, ih, List.prefix_cons_inj]

theorem workerCalls_of_success (env : Env Body Doc Sel) (startURL : String) (refs : List String)
    (hok : ∀ ref ∈ refs, inScope startURL ref = true →
      (doFetch env (resolveURL startURL ref)).2 = none) :
    workerCalls env startURL refs =
      ((refs.filter (fun ref => inScope startURL ref)).map (resolveURL startURL), false) := by
  induction refs with
  | nil => simp [workerCalls]
  | cons ref rest ih =>
    have ih' := ih (fun r hr => hok r (List.mem_cons_of_mem _ hr))
    have hc := fetchCalls_linkWorker env startURL ref
    have hx := linkWorker_exit_iff env startURL ref
    have h0 := hok ref (List.mem_cons_self _ _)
    simp only [workerCalls]
    rcases hw : linkWorker env startURL ref with ⟨evs, _ | _⟩ <;> rw [hw] at hc hx
    · cases hs : inScope startURL ref <;> simp [hs] at hc <;>
        simp [hc, hs, List.filter_cons, ih']
    · simp at hx
      exact absurd (h0 hx.1) hx.2

theorem crawlLinks_of_seed (env : Env Body Doc Sel) (startURL : String) (concurrency : Nat)
    (selector : Sel) (body : Body) (htmlDoc : Doc)
    (hreq : env.newRequest startURL = none) (hdo : env.clientDo startURL = .ok body)
    (hparse : env.htmlParse body = .ok htmlDoc) (hclose : env.bodyClose body = none) :
    crawlLinks env startURL concurrency selector =
      (.get startURL :: (crawlNodes env startURL (env.matchAll selector htmlDoc)).1,
        if (crawlNodes env startURL (env.matchAll selector htmlDoc)).2 then .exited
        else .returned none) := by
  simp only [crawlLinks, hreq, hdo, hparse, hclose]
  rcases crawlNodes env startURL (env.matchAll selector htmlDoc) with ⟨evs, _ | _⟩ <;> simp

/-- Fetch attempts of `crawlLinks` are always an initial segment of the
resolved in-scope `href` values, in document order. -/
theorem crawlLinks_fetchCalls_initial (env : Env Body Doc Sel) (startURL : String)
    (concurrency : Nat) (selector : Sel) (body : Body) (htmlDoc : Doc)
    (hreq : env.newRequest startURL = none) (hdo : env.clientDo startURL = .ok body)
    (hparse : env.htmlParse body = .ok htmlDoc) (hclose : env.bodyClose body = none) :
    fetchCalls (crawlLinks env startURL concurrency selector).1 <+:
      linkTargets startURL (env.matchAll selector htmlDoc) := by
  rw [crawlLinks_of_seed env startURL concurrency selector body htmlDoc hreq hdo hparse hclose]
  have h := congrArg Prod.fst (crawlNodes_calls env startURL (env.matchAll selector htmlDoc))
  simp only at h
  simp only [fetchCalls, h, linkTargets]
  exact workerCalls_initial env startURL _

/-- When no fetch of an in-scope target fails, `crawlLinks` attempts a fetch
for exactly the resolved in-scope `href` values, one per attribute, and
returns `nil`. -/
theorem crawlLinks_fetchCalls_of_success (env : Env Body Doc Sel) (startURL : String)
    (concurrency : Nat) (selector : Sel) (body : Body) (htmlDoc : Doc)
    (hreq : env.newRequest startURL = none) (hdo : env.clientDo startURL = .ok body)
    (hparse : env.htmlParse body = .ok htmlDoc) (hclose : env.bodyClose body = none)
    (hok : ∀ ref ∈ hrefValues (env.matchAll selector htmlDoc), inScope startURL ref = true →
      (doFetch env (resolveURL startURL ref)).2 = none) :
    fetchCalls (crawlLinks env startURL concurrency selector).1
      = linkTargets startURL (env.matchAll selector htmlDoc) ∧
    (crawlLinks env startURL concurrency selector).2 = .returned none := by
  rw [crawlLinks_of_seed env startURL concurrency selector body htmlDoc hreq hdo hparse hclose]
  have h := crawlNodes_calls env startURL (env.matchAll selector htmlDoc)
  rw [workerCalls_of_success env startURL _ hok] at h
  have h1 := congrArg Prod.fst h
  have h2 := congrArg Prod.snd h
  simp only at h1 h2
  simp [fetchCalls, h1, h2, linkTargets]

end Crawl

/-! ## The scope decision -/

/-- C2: the worker of `crawlLinks` passes a target to `do` exactly when its
resolved URL begins with `startURL`, and then it passes the resolved URL; so
every target fetched by a worker, and by the whole loop over the matched
elements, begins with `startURL`; every reference that does not begin with
"http" is in scope, a reference that begins with "http" is in scope iff it
begins with `startURL`, and "https://other.com/x" against
"https://example.com" is out of scope and not fetched. -/
theorem scope_decision {Body Doc Sel : Type} (env : Env Body Doc Sel)
    (startURL ref : String) :
    (fetchCalls (linkWorker env startURL ref).1 =
      if hasPrefix (resolveURL startURL ref) startURL then [resolveURL startURL ref] else []) ∧
    (∀ u ∈ fetchCalls (linkWorker env startURL ref).1, hasPrefix u startURL = true) ∧
    (∀ links : List Node, ∀ u ∈ fetchCalls (crawlNodes env startURL links).1,
      hasPrefix u startURL = true) ∧
    (hasPrefix ref "http" = false → hasPrefix (resolveURL startURL ref) startURL = true) ∧
    (hasPrefix ref "http" = true →
      (hasPrefix (resolveURL startURL ref) startURL = true ↔ hasPrefix ref startURL = true)) ∧
    hasPrefix (resolveURL "https://example.com" "https://other.com/x") "https://example.com"
      = false ∧
    fetchCalls (linkWorker env "https://example.com" "https://other.com/x").1 = [] := by
  have key := fetchCalls_linkWorker env startURL ref
  unfold inScope at key
  refine ⟨key, ?_, ?_, inScope_of_relative startURL ref, ?_, by decide, ?_⟩
  · intro u hu
    rw [key] at hu
    cases hs : hasPrefix (resolveURL startURL ref) startURL with
    | false => simp [hs] at hu
    | true =>
      simp [hs] at hu
      rw [hu]
      exact hs
  · intro links u hu
    have h := congrArg Prod.fst (crawlNodes_calls env startURL links)
    simp only at h
    rw [h] at hu
    have hmem := (workerCalls_initial env startURL (hrefValues links)).subset hu
    rw [List.mem_map] at hmem
    obtain ⟨r, hr, rfl⟩ := hmem
    rw [List.mem_filter] at hr
    exact hr.2
  · intro h
    have := inScope_of_absolute startURL ref h
    unfold inScope at this
    rw [this]
  · rw [fetchCalls_linkWorker]
    simp [show inScope "https://example.com" "https://other.com/x" = false by decide]

/-- C2 at the reference "docs/intro": it is in scope and its worker fetches
"https://example.com/docs/intro". -/
theorem scope_decision_witness :
    hasPrefix "docs/intro" "http" = false ∧
    hasPrefix (resolveURL "https://example.com" "docs/intro") "https://example.com" = true ∧
    fetchCalls (linkWorker scenarioEnv "https://example.com" "docs/intro").1 =
      ["https://example.com/docs/intro"] :=
  ⟨by decide,
   (scope_decision scenarioEnv "https://example.com" "docs/intro").2.2.2.1 (by decide),
   by
    rw [(scope_decision scenarioEnv "https://example.com" "docs/intro").1]
    decide⟩

/-! ## Tokens and errors -/

section Tokens

variable {Body Doc Sel : Type}

theorem acquires_nil : acquires [] = 0 := rfl

theorem releases_nil : releases [] = 0 := rfl

theorem acquires_cons (e : Event) (evs : List Event) :
    acquires (e :: evs) = acquires evs + (if e = .acquire then 1 else 0) := by
  simp [acquires, List.count_cons]

theorem releases_cons (e : Event) (evs : List Event) :
    releases (e :: evs) = releases evs + (if e = .release then 1 else 0) := by
  simp [releases, List.count_cons]

theorem acquires_append (xs ys : List Event) :
    acquires (xs ++ ys) = acquires xs + acquires ys := by
  simp [acquires, List.count_append]

theorem releases_append (xs ys : List Event) :
    releases (xs ++ ys) = releases xs + releases ys := by
  simp [releases, List.count_append]

theorem tokens_doFetch (env : Env Body Doc Sel) (url : String) :
    acquires (doFetch env url).1 = 0 ∧ releases (doFetch env url).1 = 0 := by
  unfold doFetch
  split
  · simp [acquires_cons, releases_cons, acquires_nil, releases_nil]
  · split <;> simp [acquires_cons, releases_cons, acquires_nil, releases_nil]

/-- A sitemap worker performs exactly one release, whatever the outcome of
its fetch, and attempts exactly the fetch of its URL. -/
theorem sitemapWorker_tokens (env : Env Body Doc Sel) (url : String) :
    acquires (sitemapWorker env url) = 0 ∧ releases (sitemapWorker env url) = 1 ∧
    fetchCalls (sitemapWorker env url) = [url] := by
  have ht := tokens_doFetch env url
  have hc := fetchCalls_doFetch env url
  unfold sitemapWorker
  rcases hf : doFetch env url with ⟨evs, _ | err⟩ <;> rw [hf] at ht hc <;>
    simp only [acquires_append, releases_append, fetchCalls_append] <;>
    simp [ht.1, ht.2, hc, acquires_cons, releases_cons, acquires_nil, releases_nil, fetchCalls]

/-- The consumer of `crawlSitemap` returns `nil` for every entry. -/
theorem sitemapConsumer_result (env : Env Body Doc Sel) (loc : String) :
    (sitemapConsumer env loc).2 = none := rfl

theorem feedEntries_sitemapConsumer (env : Env Body Doc Sel) (final : Option Error)
    (entries : List String) :
    (feedEntries (sitemapConsumer env) final entries).2 = final ∧
    acquires (feedEntries (sitemapConsumer env) final entries).1 = entries.length ∧
    releases (feedEntries (sitemapConsumer env) final entries).1 = entries.length ∧
    fetchCalls (feedEntries (sitemapConsumer env) final entries).1 = entries := by
  induction entries with
  | nil => simp [feedEntries, acquires_nil, releases_nil, fetchCalls]
  | cons e rest ih =>
    obtain ⟨h1, h2, h3, h4⟩ := ih
    obtain ⟨w1, w2, w3⟩ := sitemapWorker_tokens env e
    simp only [feedEntries, sitemapConsumer, List.length_cons]
    refine ⟨h1, ?_, ?_, ?_⟩
    · rw [acquires_append, h2, acquires_cons, w1]
      simp
      omega
    · rw [releases_append, h3, releases_cons, w2]
      simp
      omega
    · rw [fetchCalls_append, h4]
      simp [fetchCalls, w3]

/-- The result of `crawlSitemap` is the sitemap parser's own result: a failing
target fetch never changes it. -/
theorem crawlSitemap_result (env : Env Body Doc Sel) (url : String) (concurrency : Nat) :
    (crawlSitemap env url concurrency).2 = parserResult env url := by
  unfold crawlSitemap parseFromSite parserResult
  rcases hfeed : env.sitemapFeed url with err | ⟨entries, final⟩
  · rfl
  · exact (feedEntries_sitemapConsumer env final entries).1

/-- In sitemap mode every entry is dispatched and fetched once, and every
dispatched worker releases its token, whatever the outcomes of the fetches. -/
theorem crawlSitemap_tokens (env : Env Body Doc Sel) (url : String) (concurrency : Nat)
    (entries : List String) (final : Option Error)
    (hfeed : env.sitemapFeed url = .ok (entries, final)) :
    acquires (crawlSitemap env url concurrency).1 = entries.length ∧
    releases (crawlSitemap env url concurrency).1 = entries.length ∧
    fetchCalls (crawlSitemap env url concurrency).1 = entries := by
  obtain ⟨_, h2, h3, h4⟩ := feedEntries_sitemapConsumer env final entries
  simp only [crawlSitemap, parseFromSite, hfeed]
  refine ⟨?_, ?_, ?_⟩
  · simp [acquires_cons, h2]
  · simp [releases_cons, h3]
  · simpa [fetchCalls] using h4

theorem linkWorker_tokens (env : Env Body Doc Sel) (startURL ref : String) :
    acquires (linkWorker env startURL ref).1 = 0 ∧
    releases (linkWorker env startURL ref).1 =
      if (linkWorker env startURL ref).2 then 0 else 1 := by
  cases hs : inScope startURL ref with
  | false =>
    simp [linkWorker_of_outOfScope env startURL ref hs, acquires_cons, releases_cons,
      acquires_nil, releases_nil]
  | true =>
    have ht := tokens_doFetch env (resolveURL startURL ref)
    rw [linkWorker_of_inScope env startURL ref hs]
    rcases hf : doFetch env (resolveURL startURL ref) with ⟨evs, _ | err⟩ <;> rw [hf] at ht <;>
      simp only [acquires_append, releases_append] <;>
      simp [ht.1, ht.2, acquires_cons, releases_cons, acquires_nil, releases_nil]

theorem crawlAttrs_tokens (env : Env Body Doc Sel) (startURL : String) (attrs : List Attribute) :
    releases (crawlAttrs env startURL attrs).1 +
        (if (crawlAttrs env startURL attrs).2 then 1 else 0)
      = acquires (crawlAttrs env startURL attrs).1 := by
  induction attrs with
  | nil => simp [crawlAttrs, acquires_nil, releases_nil]
  | cons attr rest ih =>
    simp only [crawlAttrs]
    split
    · exact ih
    · obtain ⟨w1, w2⟩ := linkWorker_tokens env startURL attr.Val
      rcases hw : linkWorker env startURL attr.Val with ⟨evs, _ | _⟩ <;> rw [hw] at w1 w2 <;>
        simp only [Bool.false_eq_true, if_false, if_true] at w1 w2 ⊢
      · rw [List.cons_append, acquires_cons, releases_cons, acquires_append, releases_append,
          w1, w2]
        simp
        omega
      · rw [acquires_cons, releases_cons, w1, w2]
        simp

theorem crawlNodes_tokens (env : Env Body Doc Sel) (startURL : String) (links : List Node) :
    releases (crawlNodes env startURL links).1 +
        (if (crawlNodes env startURL links).2 then 1 else 0)
      = acquires (crawlNodes env startURL links).1 := by
  induction links with
  | nil => simp [crawlNodes, acquires_nil, releases_nil]
  | cons link rest ih =>
    have ha := crawlAttrs_tokens env startURL link.Attr
    rcases hc : crawlAttrs env startURL link.Attr with ⟨evs, _ | _⟩ <;> rw [hc] at ha <;>
      simp only [crawlNodes, hc, Bool.false_eq_true, if_false, if_true] at ha ⊢
    · rw [acquires_append, releases_append]
      omega
    · exact ha

/-- In link mode every dispatched worker releases its token unless the
process is ended by `log.Fatal`: when `crawlLinks` returns, the releases match
the acquisitions, and when the process exits exactly one token is still
held. -/
theorem crawlLinks_tokens (env : Env Body Doc Sel) (startURL : String) (concurrency : Nat)
    (selector : Sel) :
    releases (crawlLinks env startURL concurrency selector).1 +
        (if (crawlLinks env startURL concurrency selector).2 = .exited then 1 else 0)
      = acquires (crawlLinks env startURL concurrency selector).1 := by
  rcases h1 : env.newRequest startURL with _ | err
  · rcases h2 : env.clientDo startURL with err | body
    · simp [crawlLinks, h1, h2, acquires_cons, releases_cons, acquires_nil, releases_nil]
    · rcases h3 : env.htmlParse body with err | htmlDoc
      · simp [crawlLinks, h1, h2, h3, acquires_cons, releases_cons, acquires_nil, releases_nil]
      · rcases h4 : env.bodyClose body with _ | err
        · rw [crawlLinks_of_seed env startURL concurrency selector body htmlDoc h1 h2 h3 h4]
          have h := crawlNodes_tokens env startURL (env.matchAll selector htmlDoc)
          cases hc : (crawlNodes env startURL (env.matchAll selector htmlDoc)).2 <;>
            rw [hc] at h <;>
            simp only [Bool.false_eq_true, if_false, if_true] at h <;>
            simp [acquires_cons, releases_cons, h]
        · simp [crawlLinks, h1, h2, h3, h4, acquires_cons, releases_cons, acquires_nil,
            releases_nil]
  · simp [crawlLinks, h1, acquires_nil, releases_nil]

end Tokens

/-! ## The crawl as a whole -/

/-- End-to-end scenario B: with every fetch succeeding, the seed
"https://example.com" and the anchors "/a", "https://example.com/b" and
"https://other.com/c" give fetch attempts for exactly
"https://example.com/a" and "https://example.com/b". -/
theorem scenario_B :
    fetchCalls (crawlLinks scenarioEnv "https://example.com" 10 ()).1
      = ["https://example.com/a", "https://example.com/b"] ∧
    (crawlLinks scenarioEnv "https://example.com" 10 ()).2 = .returned none := by
  decide

/-- C4 (failing input): the seed page of `failingEnv` has the in-scope anchors
"/a" and "/b", so the fetch attempts should be "https://example.com/a" and
"https://example.com/b"; the request for the first fails, the worker calls
`log.Fatal`, and no fetch is attempted for the second. -/
theorem link_extraction_stops_at_failed_fetch :
    linkTargets "https://example.com" (failingEnv.matchAll () ())
      = ["https://example.com/a", "https://example.com/b"] ∧
    fetchCalls (crawlLinks failingEnv "https://example.com" 1 ()).1
      = ["https://example.com/a"] := by
  decide

/-- C6 (failing input): in link mode a worker whose fetch fails ends the
process with `log.Fatal` before its deferred release: one token was acquired
for it and no release occurs. -/
theorem failed_link_fetch_skips_release :
    acquires (crawlLinks failingEnv "https://example.com" 1 ()).1 = 1 ∧
    releases (crawlLinks failingEnv "https://example.com" 1 ()).1 = 0 ∧
    (crawlLinks failingEnv "https://example.com" 1 ()).2 = .exited := by
  decide

/-- C7 (failing input): in link mode the failing fetch of
"https://example.com/a" ends the process, and "https://example.com/b" is
never crawled; in sitemap mode the same failure is logged and the crawl goes
on to "https://example.com/b" and returns `nil`. -/
theorem failed_link_fetch_is_fatal :
    crawlLinks failingEnv "https://example.com" 1 () =
      ([.get "https://example.com", .acquire, .call "https://example.com/a",
        .get "https://example.com/a", .fatal "timeout"], .exited) ∧
    crawlSitemap failingEnv "https://example.com/sitemap.xml" 1 =
      ([.logCrawling "https://example.com/sitemap.xml",
        .sitemapGet "https://example.com/sitemap.xml",
        .acquire, .call "https://example.com/a", .get "https://example.com/a",
        .logError "https://example.com/a" "timeout", .release,
        .acquire, .call "https://example.com/b", .get "https://example.com/b",
        .logResponse "https://example.com/b", .release], none) := by
  decide

section Run

variable {Body Doc Sel : Type}

/-- In any mode other than "links" the selector string is never compiled:
`run` does the same whatever `css3selector` is. -/
theorem runSites_ignores_selector (env : Env Body Doc Sel) (mode sel sel' : String)
    (concurrency : Nat) (sites : List String) (hmode : (mode == "links") = false) :
    runSites env mode sel concurrency sites = runSites env mode sel' concurrency sites := by
  induction sites with
  | nil => rfl
  | cons site rest ih => simp only [runSites, hmode, Bool.false_eq_true, if_false, ih]

/-- C8 (as amended): when the mode is "links", there is at least one site and
the selector string does not compile, `run` returns the compile error and
its trace is empty: no fetch of any kind is performed. -/
theorem invalid_selector_is_fatal (env : Env Body Doc Sel) (c : Context) (err : Error)
    (hmode : c.mode = "links") (hsite : c.site ≠ [])
    (hsel : env.compile c.css3selector = .error err) :
    run env c = ([], .returned (some err)) := by
  unfold run
  rcases hs : c.site with _ | ⟨site, rest⟩
  · exact absurd hs hsite
  · simp [runSites, hmode, hsel]

end Run

theorem invalid_selector_is_fatal_witness :
    scenarioEnv.compile "a[" = .error "invalid selector" ∧
    run scenarioEnv
        { mode := "links", site := ["https://example.com"], css3selector := "a[",
          concurrency := 10, timeout := 10 }
      = ([], .returned (some "invalid selector")) :=
  ⟨rfl,
   invalid_selector_is_fatal scenarioEnv
     { mode := "links", site := ["https://example.com"], css3selector := "a[",
       concurrency := 10, timeout := 10 }
     "invalid selector" rfl (by decide) rfl⟩

/-- C8 (counterexample): with the invalid selector "a[", `run` in the default
mode "sitemap" fetches the sitemap root and its entries and returns `nil`;
and in mode "links" with no site it returns `nil` as well. -/
theorem invalid_selector_counterexample :
    scenarioEnv.compile "a[" = .error "invalid selector" ∧
    run scenarioEnv
        { mode := "sitemap", site := ["https://example.com"], css3selector := "a[",
          concurrency := 10, timeout := 10 }
      = ([.logCrawling "https://example.com/sitemap.xml",
          .sitemapGet "https://example.com/sitemap.xml",
          .acquire, .call "https://example.com/a", .get "https://example.com/a",
          .logResponse "https://example.com/a", .release], .returned none) ∧
    run scenarioEnv
        { mode := "links", site := [], css3selector := "a[",
          concurrency := 10, timeout := 10 }
      = ([], .returned none) :=
  ⟨rfl, by decide, by decide⟩

end Crawler
